import Mathlib

/-!
Verification of the P2P challenge settlement behaviour of the repository.

The first section embeds the client-side logic of
`P2PChallengeTradePanel` (src/unnamed/part_000): the vote map built by
`fetchVotes`, the auto-release condition it checks, the derived flags
`bothVoted` and `votesMatch`, the vote-result and dispute-menu branches
of the rendered panel, the countdown computation and `formatCountdown`,
and the hex digest rendering of `handleFile`.

The second section models the server-side settlement engine
(SettlementEngine / VoteLedger / ProofStore / DisputeGateway) from the
specification, since only its client callers are present in the sources.
-/

namespace Panel

/-- The vote choice, from the `Vote` type of the panel:
`choice: 'challenger' | 'challenged'`. -/
inductive Choice where
  | challenger
  | challenged
deriving DecidableEq, Repr

/-- A vote record as the panel stores it: `{ userId, choice, timestamp }`. -/
structure Vote where
  userId : String
  choice : Choice
  timestamp : String
deriving DecidableEq, Repr

/-- The panel status state, from
`useState<'uploading' | 'voting' | 'released' | 'disputed' | 'auto-released' | null>`.
The React `null` is represented by `Option.none` at use sites. -/
inductive Status where
  | uploading
  | voting
  | released
  | disputed
  | autoReleased
deriving DecidableEq, Repr

/-- One step of the `voteMap[v.userId] = ...` loop in `fetchVotes`:
JavaScript object assignment keeps the original insertion position of an
existing key and overwrites its value, and appends a fresh key at the end. -/
def insertVote (m : List Vote) (v : Vote) : List Vote :=
  if m.any (fun w => w.userId == v.userId) then
    m.map (fun w => if w.userId == v.userId then v else w)
  else
    m ++ [v]

/-- The vote map `fetchVotes` builds from the fetched array, as its ordered
list of values (`Object.values` order = key insertion order). -/
def buildVoteMap (data : List Vote) : List Vote :=
  data.foldl insertVote []

/-- The auto-release check of `fetchVotes` (part_000 lines 94-100):
`Object.keys(voteMap).length === 2` and then
`voteChoices[0] === voteChoices[1]` over `Object.values(voteMap)`. -/
def fetchVotesAutoRelease (vm : List Vote) : Bool :=
  if vm.length == 2 then
    match vm.map (fun v => v.choice) with
    | c0 :: c1 :: _ => c0 == c1
    | _ => false
  else
    false

/-- The effect of one `fetchVotes` call on the `status` state: the status is
set to `'auto-released'` when the check fires, and left unchanged otherwise. -/
def fetchVotesUpdate (prev : Option Status) (vm : List Vote) : Option Status :=
  if fetchVotesAutoRelease vm then some Status.autoReleased else prev

/-- `const bothVoted = Object.keys(votes).length === 2` (line 196). -/
def bothVoted (vm : List Vote) : Bool :=
  vm.length == 2

/-- `const votesMatch = bothVoted && Object.values(votes).every(v => v.choice
=== Object.values(votes)[0].choice)` (line 197). -/
def votesMatch (vm : List Vote) : Bool :=
  bothVoted vm &&
    (match vm with
     | v0 :: _ => vm.all (fun v => v.choice == v0.choice)
     | [] => false)

/-- What the vote-result block of the panel renders (lines 341-355): nothing
until both voted, then either the released banner or the dispute banner. -/
inductive VoteOutcomeDisplay where
  | fundsReleased
  | disputeNeeded
deriving DecidableEq, Repr

/-- The vote-result branch: `bothVoted && (votesMatch ? released : dispute)`. -/
def voteResult (vm : List Vote) : Option VoteOutcomeDisplay :=
  if bothVoted vm then
    if votesMatch vm then some VoteOutcomeDisplay.fundsReleased
    else some VoteOutcomeDisplay.disputeNeeded
  else
    none

/-- The dispute-menu gate (line 360): the block offering `handleOpenDispute`
is rendered only when `bothVoted && !votesMatch`. -/
def disputeMenuShown (vm : List Vote) : Bool :=
  bothVoted vm && !(votesMatch vm)

/-- The status after a successful `handleOpenDispute` (lines 171-179):
`setStatus('disputed')` unconditionally on API success. -/
def handleOpenDisputeStatus (_prev : Option Status) : Option Status :=
  some Status.disputed

/-- The countdown computation of the timer effect (line 52):
`const remaining = Math.max(0, due - now)`, over millisecond epoch times. -/
def remainingMs (now due : Int) : Int :=
  max 0 (due - now)

/-- `formatCountdown` (lines 199-206). `none` is the initial `null` state. -/
def formatCountdown (ms : Option Int) : String :=
  match ms with
  | none => "Expired"
  | some m =>
    if m ≤ 0 then "Expired"
    else
      let totalSeconds := m.toNat / 1000
      let hours := totalSeconds / 3600
      let minutes := (totalSeconds % 3600) / 60
      let seconds := totalSeconds % 60
      toString hours ++ "h " ++ toString minutes ++ "m " ++ toString seconds ++ "s"

/-- JavaScript `b.toString(16)`: base-16 digits, most significant first,
lowercase letters, a single `"0"` for zero. `Nat.toDigits 16` has exactly
these semantics via `Nat.digitChar`. -/
def jsToHexString (b : Nat) : String :=
  String.mk (Nat.toDigits 16 b)

/-- JavaScript `s.padStart(len, c)`: prepend copies of `c` until the length
reaches `len`; no change when the string is already long enough. -/
def padStart (s : String) (len : Nat) (c : Char) : String :=
  String.mk (List.replicate (len - s.length) c) ++ s

/-- One byte of the digest rendering in `handleFile` (line 129):
`b.toString(16).padStart(2, '0')`. -/
def byteToHex (b : Nat) : String :=
  padStart (jsToHexString b) 2 '0'

/-- The full digest rendering (line 129):
`hashArray.map(b => b.toString(16).padStart(2, '0')).join('')`. -/
def hashHexOfBytes (bs : List Nat) : String :=
  String.join (bs.map byteToHex)

/-- A lowercase hexadecimal character. -/
def isLowerHexChar (c : Char) : Bool :=
  (('0' ≤ c && c ≤ '9') || ('a' ≤ c && c ≤ 'f'))

end Panel

namespace Engine

/-!
Modelled from the spec: the server-side core — SettlementEngine,
VoteLedger.castVote, ProofStore.submit and DisputeGateway — is reached by
the panel only through HTTP endpoints (`POST .../vote`, `POST .../proofs`,
`POST .../dispute`) and is not among the repository sources; the
definitions below follow sections 4.1-4.5, 7 and 8 of the specification.
The model is per challenge: a single `ChallengeState` carries the data the
spec attributes to one challenge, so the `UnknownChallenge` precondition
(a lookup failure across challenges) is outside the modelled state.
-/

/-- Modelled from the spec: `choice ∈ {challenger, challenged}` of a Vote. -/
inductive Choice where
  | challenger
  | challenged
deriving DecidableEq, Repr

/-- Modelled from the spec: a recorded Vote
`{ challengeId, voterId, choice, referencedProofHash, castAt }`
(the challengeId is implicit in the per-challenge state). -/
structure Vote where
  voterId : String
  choice : Choice
  referencedProofHash : String
  castAt : Int
deriving DecidableEq, Repr

/-- Modelled from the spec: a ProofSubmission
`{ id, challengeId, submitterId, contentURI, contentHash, submittedAt }`. -/
structure ProofSubmission where
  submitterId : String
  contentURI : String
  contentHash : String
  submittedAt : Int
deriving DecidableEq, Repr

/-- Modelled from the spec: the dispute reason
`reason ∈ {VoteMismatch, Expired, ParticipantInitiated}`. -/
inductive DisputeReason where
  | voteMismatch
  | expired
  | participantInitiated
deriving DecidableEq, Repr

/-- Modelled from the spec: the settlement outcome
`{Pending, AutoReleased(winnerId), DisputeOpened}` (the spec folds the
expiry case into `DisputeOpened` with reason `Expired`). -/
inductive Outcome where
  | pending
  | autoReleased (winnerId : String)
  | disputeOpened (reason : DisputeReason)
deriving DecidableEq, Repr

/-- Modelled from the spec: the error taxonomy of section 7 (less
`UnknownChallenge`, see the namespace comment). -/
inductive SettleError where
  | notAParticipant
  | proofNotFound
  | invalidHash
  | alreadyVoted
  | challengeAlreadySettled
  | alreadyDisputed
deriving DecidableEq, Repr

/-- Modelled from the spec: the per-challenge state — two participant
identities, the due timestamp, the proof log, the bounded vote set, and the
single settlement-decision slot. -/
structure ChallengeState where
  challenger : String
  challenged : String
  dueAt : Int
  proofs : List ProofSubmission
  votes : List Vote
  decision : Outcome
deriving DecidableEq, Repr

/-- A decision is terminal when it is not `Pending`. -/
def isTerminal : Outcome → Bool
  | Outcome.pending => false
  | _ => true

/-- Whether an identity is one of the two participants. -/
def isParticipant (st : ChallengeState) (uid : String) : Bool :=
  uid == st.challenger || uid == st.challenged

/-- Whether some recorded ProofSubmission of this challenge carries the hash. -/
def proofExists (st : ChallengeState) (hash : String) : Bool :=
  st.proofs.any (fun p => p.contentHash == hash)

/-- The recorded vote of a participant, when one exists. -/
def getVote (st : ChallengeState) (uid : String) : Option Vote :=
  st.votes.find? (fun v => v.voterId == uid)

/-- Modelled from the spec: DeadlineClock,
`remaining(now, dueAt) = max(0, dueAt - now)`. -/
def remaining (now dueAt : Int) : Int :=
  max 0 (dueAt - now)

/-- Modelled from the spec: `hasExpired(now, dueAt) = remaining == 0`. -/
def hasExpired (now dueAt : Int) : Bool :=
  remaining now dueAt == 0

/-- The winning participant identity named by a choice. -/
def winnerOf (st : ChallengeState) : Choice → String
  | Choice.challenger => st.challenger
  | Choice.challenged => st.challenged

/-- Modelled from the spec: the decision produced by one re-evaluation of
the SettlementEngine transition rules (section 4.3). A terminal decision is
never re-opened; two equal votes converge to `AutoReleased`; two differing
votes diverge to `DisputeOpened(VoteMismatch)`; an elapsed deadline with
fewer than two votes escalates to `DisputeOpened(Expired)`; otherwise the
current (pending) outcome stays. -/
def nextDecision (st : ChallengeState) (now : Int) : Outcome :=
  if isTerminal st.decision then st.decision
  else
    match st.votes with
    | [v0, v1] =>
      if v0.choice == v1.choice then
        Outcome.autoReleased (winnerOf st v0.choice)
      else
        Outcome.disputeOpened DisputeReason.voteMismatch
    | vs =>
      if hasExpired now st.dueAt && decide (vs.length < 2) then
        Outcome.disputeOpened DisputeReason.expired
      else
        st.decision

/-- Modelled from the spec: re-evaluation, triggered after every vote,
proof, or clock tick, writes only the decision slot. -/
def evaluate (st : ChallengeState) (now : Int) : ChallengeState :=
  { st with decision := nextDecision st now }

/-- Modelled from the spec: `castVote(challengeId, voterId, choice,
referencedProofHash)` of VoteLedger (section 4.2). A settled challenge is
refused first (section 4.3's `ChallengeAlreadySettled` guarantee); then the
preconditions `NotAParticipant`, `ProofNotFound`, `AlreadyVoted` are checked
in the spec's order; on success the vote is recorded and the engine
re-evaluates. A failure leaves the state unchanged (atomic reject). -/
def castVote (st : ChallengeState) (now : Int) (voterId : String)
    (choice : Choice) (referencedProofHash : String) :
    Except SettleError ChallengeState :=
  if isTerminal st.decision then
    Except.error SettleError.challengeAlreadySettled
  else if !(isParticipant st voterId) then
    Except.error SettleError.notAParticipant
  else if !(proofExists st referencedProofHash) then
    Except.error SettleError.proofNotFound
  else if (getVote st voterId).isSome then
    Except.error SettleError.alreadyVoted
  else
    Except.ok (evaluate
      { st with votes := st.votes ++
          [{ voterId := voterId, choice := choice,
             referencedProofHash := referencedProofHash, castAt := now }] }
      now)

/-- Modelled from the spec: a well-formed digest is a fixed-length (64)
lowercase hexadecimal string (sections 4.1 and 6). -/
def isValidHash (h : String) : Bool :=
  h.length == 64 && h.data.all Panel.isLowerHexChar

/-- Modelled from the spec: `submit(challengeId, submitterId, contentURI,
contentHash)` of ProofStore (section 4.1), with the settled-challenge
refusal of section 4.3 (`ChallengeAlreadySettled` on any further proof
mutation) and the `InvalidHash` well-formedness check. Append-only. -/
def submitProof (st : ChallengeState) (now : Int) (submitterId : String)
    (contentURI contentHash : String) : Except SettleError ChallengeState :=
  if isTerminal st.decision then
    Except.error SettleError.challengeAlreadySettled
  else if !(isValidHash contentHash) then
    Except.error SettleError.invalidHash
  else
    let p : ProofSubmission :=
      { submitterId := submitterId, contentURI := contentURI,
        contentHash := contentHash, submittedAt := now }
    Except.ok { st with proofs := st.proofs ++ [p] }

/-- Modelled from the spec: `openDispute(challengeId, callerId)` (section
4.3), callable before a terminal decision is reached and forcing
`DisputeOpened(ParticipantInitiated)` immediately, regardless of vote
state; refused with `ChallengeAlreadySettled` afterwards. -/
def openDispute (st : ChallengeState) (callerId : String) :
    Except SettleError ChallengeState :=
  if isTerminal st.decision then
    Except.error SettleError.challengeAlreadySettled
  else if !(isParticipant st callerId) then
    Except.error SettleError.notAParticipant
  else
    Except.ok { st with decision := Outcome.disputeOpened DisputeReason.participantInitiated }

end Engine

section PanelProofs

/-- Helper: the `fetchVotes` auto-release condition characterised:
it fires exactly on a two-entry vote map whose choices agree. -/
lemma fetchVotesAutoRelease_iff (vm : List Panel.Vote) :
    Panel.fetchVotesAutoRelease vm = true ↔
      ∃ v0 v1, vm = [v0, v1] ∧ v0.choice = v1.choice := by
  cases vm with
  | nil => simp [Panel.fetchVotesAutoRelease]
  | cons v0 t =>
    cases t with
    | nil => simp [Panel.fetchVotesAutoRelease]
    | cons v1 t2 =>
      cases t2 with
      | nil =>
        simp only [Panel.fetchVotesAutoRelease, List.length_cons, List.length_nil,
          List.map_cons, beq_iff_eq]
        constructor
        · intro h
          exact ⟨v0, v1, rfl, by simpa using h⟩
        · rintro ⟨a, b, hab, hc⟩
          obtain ⟨h0, h1⟩ : v0 = a ∧ v1 = b := by simpa using hab
          subst h0
          subst h1
          simpa using hc
      | cons v2 t3 =>
        simp [Panel.fetchVotesAutoRelease]

/-- Helper: the derived `votesMatch` flag characterised the same way. -/
lemma votesMatch_iff (vm : List Panel.Vote) :
    Panel.votesMatch vm = true ↔
      ∃ v0 v1, vm = [v0, v1] ∧ v0.choice = v1.choice := by
  cases vm with
  | nil => simp [Panel.votesMatch, Panel.bothVoted]
  | cons v0 t =>
    cases t with
    | nil => simp [Panel.votesMatch, Panel.bothVoted]
    | cons v1 t2 =>
      cases t2 with
      | nil =>
        constructor
        · intro h
          have hc : v1.choice = v0.choice := by
            simpa [Panel.votesMatch, Panel.bothVoted] using h
          exact ⟨v0, v1, rfl, hc.symm⟩
        · rintro ⟨a, b, hab, hc⟩
          obtain ⟨h0, h1⟩ : v0 = a ∧ v1 = b := by simpa using hab
          subst h0
          subst h1
          simp [Panel.votesMatch, Panel.bothVoted, hc]
      | cons v2 t3 =>
        simp [Panel.votesMatch, Panel.bothVoted]

/-- C10: the two independent computations of vote agreement are equivalent:
the condition under which `fetchVotes` sets the auto-released status equals
the derived `votesMatch` flag, on every vote map. -/
theorem fetchVotes_condition_equiv_votesMatch (vm : List Panel.Vote) :
    Panel.fetchVotesAutoRelease vm = Panel.votesMatch vm := by
  cases hf : Panel.fetchVotesAutoRelease vm with
  | true =>
    obtain ⟨v0, v1, hvm, hch⟩ := (fetchVotesAutoRelease_iff vm).mp hf
    exact ((votesMatch_iff vm).mpr ⟨v0, v1, hvm, hch⟩).symm
  | false =>
    cases hm : Panel.votesMatch vm with
    | true =>
      obtain ⟨v0, v1, hvm, hch⟩ := (votesMatch_iff vm).mp hm
      have hc : Panel.fetchVotesAutoRelease vm = true :=
        (fetchVotesAutoRelease_iff vm).mpr ⟨v0, v1, hvm, hch⟩
      rw [hf] at hc
      exact absurd hc (by simp)
    | false => rfl

/-- C1: the auto-released status is produced by a `fetchVotes` pass (from a
status that is not already auto-released) exactly when the vote map holds
two votes of equal choice: with fewer than two votes, or two votes of
unequal choice, auto-release is never produced. -/
theorem auto_release_requires_two_equal_votes
    (prev : Option Panel.Status) (vm : List Panel.Vote)
    (hprev : prev ≠ some Panel.Status.autoReleased) :
    Panel.fetchVotesUpdate prev vm = some Panel.Status.autoReleased ↔
      ∃ v0 v1, vm = [v0, v1] ∧ v0.choice = v1.choice := by
  constructor
  · intro h
    by_cases hc : Panel.fetchVotesAutoRelease vm = true
    · exact (fetchVotesAutoRelease_iff vm).mp hc
    · exfalso
      apply hprev
      rw [← h]
      simp [Panel.fetchVotesUpdate, hc]
  · intro ⟨v0, v1, hvm, hch⟩
    have hc : Panel.fetchVotesAutoRelease vm = true :=
      (fetchVotesAutoRelease_iff vm).mpr ⟨v0, v1, hvm, hch⟩
    simp [Panel.fetchVotesUpdate, hc]

/-- Witness for C1 at a concrete agreeing vote map. -/
theorem auto_release_requires_two_equal_votes_witness :
    Panel.fetchVotesUpdate none
      [{ userId := "alice", choice := Panel.Choice.challenger, timestamp := "t1" },
       { userId := "bob", choice := Panel.Choice.challenger, timestamp := "t2" }] =
      some Panel.Status.autoReleased :=
  (auto_release_requires_two_equal_votes none _ (by simp)).mpr ⟨_, _, rfl, rfl⟩

/-- C2: on a challenge holding exactly two votes whose choices differ, the
vote-result block reports the dispute outcome, the auto-release condition is
false, and a `fetchVotes` pass leaves the status unchanged (so never sets
auto-released). -/
theorem two_differing_votes_yield_dispute (v0 v1 : Panel.Vote)
    (hne : v0.choice ≠ v1.choice) :
    Panel.voteResult [v0, v1] = some Panel.VoteOutcomeDisplay.disputeNeeded ∧
    Panel.fetchVotesAutoRelease [v0, v1] = false ∧
    (∀ prev, Panel.fetchVotesUpdate prev [v0, v1] = prev) := by
  have hm : Panel.votesMatch [v0, v1] = false := by
    cases hm : Panel.votesMatch [v0, v1] with
    | true =>
      obtain ⟨w0, w1, hw, hch⟩ := (votesMatch_iff _).mp hm
      obtain ⟨h0, h1⟩ : v0 = w0 ∧ v1 = w1 := by simpa using hw
      subst h0
      subst h1
      exact absurd hch hne
    | false => rfl
  have hf : Panel.fetchVotesAutoRelease [v0, v1] = false := by
    cases hf : Panel.fetchVotesAutoRelease [v0, v1] with
    | true =>
      obtain ⟨w0, w1, hw, hch⟩ := (fetchVotesAutoRelease_iff _).mp hf
      obtain ⟨h0, h1⟩ : v0 = w0 ∧ v1 = w1 := by simpa using hw
      subst h0
      subst h1
      exact absurd hch hne
    | false => rfl
  refine ⟨?_, hf, ?_⟩
  · simp [Panel.voteResult, Panel.bothVoted, hm]
  · intro prev
    simp [Panel.fetchVotesUpdate, hf]

/-- Witness for C2 at a concrete disagreeing vote map. -/
theorem two_differing_votes_yield_dispute_witness :
    Panel.voteResult
      [{ userId := "alice", choice := Panel.Choice.challenger, timestamp := "t1" },
       { userId := "bob", choice := Panel.Choice.challenged, timestamp := "t2" }] =
      some Panel.VoteOutcomeDisplay.disputeNeeded :=
  (two_differing_votes_yield_dispute _ _ (by decide)).1

end PanelProofs

section DisputeAndCountdown

/-- C8 counterexample: with zero votes cast (so no terminal decision — a
`fetchVotes` pass leaves the status `null`), the panel does not render the
dispute block, so the dispute action cannot be taken "before any vote". -/
theorem dispute_menu_absent_with_no_votes :
    Panel.fetchVotesUpdate none ([] : List Panel.Vote) = none ∧
    ([] : List Panel.Vote).length < 2 ∧
    Panel.disputeMenuShown ([] : List Panel.Vote) = false :=
  ⟨rfl, by decide, rfl⟩

/-- C8 amended: the dispute action is offered exactly when two votes exist
and their choices differ; whenever it is taken, it immediately forces the
disputed status regardless of any previous status. -/
theorem dispute_menu_iff_vote_mismatch (vm : List Panel.Vote)
    (prev : Option Panel.Status) :
    (Panel.disputeMenuShown vm = true ↔
      ∃ v0 v1, vm = [v0, v1] ∧ v0.choice ≠ v1.choice) ∧
    Panel.handleOpenDisputeStatus prev = some Panel.Status.disputed := by
  refine ⟨?_, rfl⟩
  cases vm with
  | nil => simp [Panel.disputeMenuShown, Panel.bothVoted]
  | cons v0 t =>
    cases t with
    | nil => simp [Panel.disputeMenuShown, Panel.bothVoted]
    | cons v1 t2 =>
      cases t2 with
      | nil =>
        constructor
        · intro h
          refine ⟨v0, v1, rfl, ?_⟩
          intro hch
          have hm : Panel.votesMatch [v0, v1] = true :=
            (votesMatch_iff _).mpr ⟨v0, v1, rfl, hch⟩
          simp [Panel.disputeMenuShown, hm] at h
        · rintro ⟨a, b, hab, hne⟩
          obtain ⟨h0, h1⟩ : v0 = a ∧ v1 = b := by simpa using hab
          subst h0
          subst h1
          have hm : Panel.votesMatch [v0, v1] = false := by
            cases hm : Panel.votesMatch [v0, v1] with
            | true =>
              obtain ⟨w0, w1, hw, hch⟩ := (votesMatch_iff _).mp hm
              obtain ⟨g0, g1⟩ : v0 = w0 ∧ v1 = w1 := by simpa using hw
              subst g0
              subst g1
              exact absurd hch hne
            | false => rfl
          simp [Panel.disputeMenuShown, Panel.bothVoted, hm]
      | cons v2 t3 =>
        simp [Panel.disputeMenuShown, Panel.bothVoted]

/-- Witness for C8 amended, at a concrete mismatched vote map. -/
theorem dispute_menu_iff_vote_mismatch_witness :
    Panel.disputeMenuShown
      [{ userId := "alice", choice := Panel.Choice.challenger, timestamp := "t1" },
       { userId := "bob", choice := Panel.Choice.challenged, timestamp := "t2" }] = true :=
  (dispute_menu_iff_vote_mismatch _ none).1.mpr ⟨_, _, rfl, by decide⟩

/-- Helper: a string ending in the character of `"s"` is not `"Expired"`. -/
lemma append_s_ne_expired (s : String) : s ++ "s" ≠ "Expired" := by
  intro h
  have h2 : (s ++ "s").data = "Expired".data := by rw [h]
  rw [String.data_append] at h2
  have h3 := congrArg List.reverse h2
  simp at h3

/-- C7: the remaining time computed by the countdown effect equals
`max 0 (dueAt - now)`, is never negative, and `formatCountdown` displays
`Expired` exactly when that remaining time is zero. -/
theorem remaining_nonneg_and_expired_iff_zero (now due : Int) :
    Panel.remainingMs now due = max 0 (due - now) ∧
    0 ≤ Panel.remainingMs now due ∧
    (Panel.formatCountdown (some (Panel.remainingMs now due)) = "Expired" ↔
      Panel.remainingMs now due = 0) := by
  refine ⟨rfl, le_max_left 0 (due - now), ?_⟩
  by_cases hz : Panel.remainingMs now due = 0
  · simp [Panel.formatCountdown, hz]
  · have hpos : 0 < Panel.remainingMs now due := by
      have hle : 0 ≤ Panel.remainingMs now due := le_max_left 0 (due - now)
      omega
    have hnle : ¬ Panel.remainingMs now due ≤ 0 := by omega
    simp only [Panel.formatCountdown, if_neg hnle]
    constructor
    · intro h
      exact absurd h (append_s_ne_expired _)
    · intro h
      exact absurd h hz

/-- Witness for C7 at concrete times (expired and non-expired). -/
theorem remaining_nonneg_and_expired_iff_zero_witness :
    Panel.remainingMs 10 4 = 0 ∧
    Panel.formatCountdown (some (Panel.remainingMs 10 4)) = "Expired" :=
  ⟨by decide, (remaining_nonneg_and_expired_iff_zero 10 4).2.2.mpr (by decide)⟩

end DisputeAndCountdown

section HexDigest

set_option maxRecDepth 20000 in
/-- Helper: for every byte value, the rendered pair
`b.toString(16).padStart(2, '0')` has exactly two characters, all lowercase
hexadecimal. Settled by evaluation over the 256 byte values. -/
lemma byteToHex_len_and_hex :
    ∀ b < 256, (Panel.byteToHex b).length = 2 ∧
      (Panel.byteToHex b).data.all Panel.isLowerHexChar = true := by decide

/-- Helper: length of a left fold of string concatenations. -/
lemma foldl_append_length (l : List String) (acc : String) :
    (l.foldl (fun r s => r ++ s) acc).length =
      acc.length + (l.map String.length).sum := by
  induction l generalizing acc with
  | nil => simp
  | cons a t ih =>
    simp only [List.foldl_cons, List.map_cons, List.sum_cons]
    rw [ih, String.length_append]
    omega

/-- Helper: character data of a left fold of string concatenations. -/
lemma foldl_append_data (l : List String) (acc : String) :
    (l.foldl (fun r s => r ++ s) acc).data =
      acc.data ++ (l.map String.data).flatten := by
  induction l generalizing acc with
  | nil => simp
  | cons a t ih =>
    simp only [List.foldl_cons, List.map_cons, List.flatten_cons]
    rw [ih, String.data_append, List.append_assoc]

/-- C9: for a digest given as a list of byte values (as `handleFile` obtains
from the SHA-256 digest buffer, 32 bytes each below 256), the rendered
`contentHash` string is a 64-character string of lowercase hexadecimal
characters, each byte contributing two zero-padded lowercase hex digits. -/
theorem proof_hash_is_64_lowercase_hex (bs : List Nat)
    (hb : ∀ b ∈ bs, b < 256) (hlen : bs.length = 32) :
    (Panel.hashHexOfBytes bs).length = 64 ∧
    (Panel.hashHexOfBytes bs).data.all Panel.isLowerHexChar = true := by
  constructor
  · have h1 : (Panel.hashHexOfBytes bs).length =
        ((bs.map Panel.byteToHex).map String.length).sum := by
      simpa [Panel.hashHexOfBytes, String.join] using
        foldl_append_length (bs.map Panel.byteToHex) ""
    rw [h1, List.map_map]
    have h2 : ∀ b ∈ bs, (String.length ∘ Panel.byteToHex) b = 2 := by
      intro b hbm
      exact (byteToHex_len_and_hex b (hb b hbm)).1
    rw [List.sum_eq_card_nsmul _ 2 (fun x hx => by
      obtain ⟨b, hbm, hxb⟩ := List.mem_map.mp hx
      rw [← hxb]
      exact h2 b hbm)]
    simp [hlen]
  · have h1 : (Panel.hashHexOfBytes bs).data =
        ((bs.map Panel.byteToHex).map String.data).flatten := by
      simpa [Panel.hashHexOfBytes, String.join] using
        foldl_append_data (bs.map Panel.byteToHex) ""
    rw [h1, List.all_eq_true]
    intro c hc
    obtain ⟨l, hl, hcl⟩ := List.mem_flatten.mp hc
    obtain ⟨s, hs, hsl⟩ := List.mem_map.mp hl
    obtain ⟨b, hbm, hbs⟩ := List.mem_map.mp hs
    have hall := (byteToHex_len_and_hex b (hb b hbm)).2
    rw [List.all_eq_true] at hall
    apply hall
    rw [hbs, hsl]
    exact hcl

/-- Witness for C9 at the all-zero 32-byte digest. -/
theorem proof_hash_is_64_lowercase_hex_witness :
    (Panel.hashHexOfBytes (List.replicate 32 0)).length = 64 ∧
    (Panel.hashHexOfBytes (List.replicate 32 0)).data.all
      Panel.isLowerHexChar = true :=
  proof_hash_is_64_lowercase_hex (List.replicate 32 0)
    (by intro b hbm; rw [List.eq_of_mem_replicate hbm]; omega) (by simp)

end HexDigest

section EngineProofs

/-- Helper: re-evaluation only ever writes the decision slot; participants,
deadline, proof log and vote set are untouched. -/
lemma evaluate_preserves_fields (st : Engine.ChallengeState) (now : Int) :
    (Engine.evaluate st now).votes = st.votes ∧
    (Engine.evaluate st now).challenger = st.challenger ∧
    (Engine.evaluate st now).challenged = st.challenged ∧
    (Engine.evaluate st now).proofs = st.proofs :=
  ⟨rfl, rfl, rfl, rfl⟩

/-- C4: once a terminal decision exists, every mutating call — casting a
vote, submitting a proof, opening a dispute — is refused with
`ChallengeAlreadySettled`, and re-evaluation never changes the recorded
decision value. -/
theorem settled_challenge_refuses_mutation (st : Engine.ChallengeState)
    (now : Int) (uid : String) (c : Engine.Choice) (uri h : String)
    (hterm : Engine.isTerminal st.decision = true) :
    Engine.castVote st now uid c h =
      Except.error Engine.SettleError.challengeAlreadySettled ∧
    Engine.submitProof st now uid uri h =
      Except.error Engine.SettleError.challengeAlreadySettled ∧
    Engine.openDispute st uid =
      Except.error Engine.SettleError.challengeAlreadySettled ∧
    (Engine.evaluate st now).decision = st.decision := by
  refine ⟨?_, ?_, ?_, ?_⟩ <;>
    simp [Engine.castVote, Engine.submitProof, Engine.openDispute,
      Engine.evaluate, Engine.nextDecision, hterm]

/-- Witness for C4 at a concrete settled challenge. -/
theorem settled_challenge_refuses_mutation_witness :
    Engine.castVote
      { challenger := "x", challenged := "y", dueAt := 100, proofs := [],
        votes := [],
        decision := Engine.Outcome.disputeOpened
          Engine.DisputeReason.participantInitiated }
      5 "x" Engine.Choice.challenger "h1" =
      Except.error Engine.SettleError.challengeAlreadySettled :=
  (settled_challenge_refuses_mutation _ 5 "x" Engine.Choice.challenger
    "u1" "h1" (by decide)).1

/-- C6: on a challenge that is not yet settled, when the deadline has
elapsed (`remaining(now, dueAt) = 0`) while fewer than two votes exist,
re-evaluation records the terminal decision `DisputeOpened` with reason
`Expired`. -/
theorem expiry_with_missing_votes_opens_dispute (st : Engine.ChallengeState)
    (now : Int) (hterm : Engine.isTerminal st.decision = false)
    (hexp : Engine.remaining now st.dueAt = 0)
    (hlt : st.votes.length < 2) :
    (Engine.evaluate st now).decision =
      Engine.Outcome.disputeOpened Engine.DisputeReason.expired := by
  have hhe : Engine.hasExpired now st.dueAt = true := by
    simp [Engine.hasExpired, hexp]
  show (Engine.evaluate st now).decision = _
  simp only [Engine.evaluate]
  unfold Engine.nextDecision
  rw [hterm]
  simp only [Bool.false_eq_true, if_false]
  cases hv : st.votes with
  | nil =>
    simp [hv, hhe]
  | cons v0 t =>
    cases t with
    | nil =>
      simp [hv, hhe]
    | cons v1 t2 =>
      rw [hv] at hlt
      simp at hlt
      omega

/-- Witness for C6 at a concrete expired challenge with zero votes. -/
theorem expiry_with_missing_votes_opens_dispute_witness :
    (Engine.evaluate
      { challenger := "x", challenged := "y", dueAt := 10, proofs := [],
        votes := [], decision := Engine.Outcome.pending } 20).decision =
      Engine.Outcome.disputeOpened Engine.DisputeReason.expired :=
  expiry_with_missing_votes_opens_dispute _ 20 (by decide) (by decide)
    (by decide)

/-- C5: a vote can only succeed when the referenced hash is the
`contentHash` of some recorded ProofSubmission of the challenge; when the
earlier preconditions pass but the hash was never submitted, the call fails
with `ProofNotFound` (and, returning an error, records no vote). -/
theorem castVote_requires_recorded_proof (st : Engine.ChallengeState)
    (now : Int) (v : String) (c : Engine.Choice) (h : String) :
    (∀ st1, Engine.castVote st now v c h = Except.ok st1 →
      Engine.proofExists st h = true) ∧
    (Engine.isTerminal st.decision = false →
      Engine.isParticipant st v = true →
      Engine.proofExists st h = false →
      Engine.castVote st now v c h =
        Except.error Engine.SettleError.proofNotFound) := by
  constructor
  · intro st1 hok
    cases hpe : Engine.proofExists st h with
    | true => rfl
    | false =>
      exfalso
      unfold Engine.castVote at hok
      split at hok
      · exact absurd hok (by simp)
      · split at hok
        · exact absurd hok (by simp)
        · split at hok
          · exact absurd hok (by simp)
          · rename_i hcond
            rw [hpe] at hcond
            simp at hcond
  · intro h1 h2 h3
    simp [Engine.castVote, h1, h2, h3]

/-- Witness for C5: a vote referencing the never-submitted hash of the
specification's Scenario C fails with `ProofNotFound`. -/
theorem castVote_requires_recorded_proof_witness :
    Engine.castVote
      { challenger := "x", challenged := "y", dueAt := 100,
        proofs := [{ submitterId := "x", contentURI := "u1",
                     contentHash := "h1", submittedAt := 1 }],
        votes := [], decision := Engine.Outcome.pending }
      5 "y" Engine.Choice.challenger "h2" =
      Except.error Engine.SettleError.proofNotFound :=
  (castVote_requires_recorded_proof _ 5 "y" Engine.Choice.challenger "h2").2
    (by decide) (by decide) (by decide)

/-- C3: after a participant's vote is recorded by a successful `castVote`,
that exact vote is in the ledger; no later `castVote` by the same
participant can ever succeed; and a later attempt that passes the
settled-challenge and proof checks is rejected precisely with
`AlreadyVoted` (each rejection returns an error, so the first vote is
unchanged). -/
theorem castVote_is_write_once (st : Engine.ChallengeState) (now now2 : Int)
    (v : String) (c c2 : Engine.Choice) (h h2 : String)
    (st1 : Engine.ChallengeState)
    (hok : Engine.castVote st now v c h = Except.ok st1) :
    Engine.getVote st1 v =
      some { voterId := v, choice := c, referencedProofHash := h,
             castAt := now } ∧
    (∀ now3 c3 h3 st2, ¬ Engine.castVote st1 now3 v c3 h3 = Except.ok st2) ∧
    (Engine.isTerminal st1.decision = false →
      Engine.proofExists st1 h2 = true →
      Engine.castVote st1 now2 v c2 h2 =
        Except.error Engine.SettleError.alreadyVoted) := by
  unfold Engine.castVote at hok
  split at hok
  · exact absurd hok (by simp)
  rename_i hterm
  split at hok
  · exact absurd hok (by simp)
  rename_i hpart
  split at hok
  · exact absurd hok (by simp)
  rename_i hpe
  split at hok
  · exact absurd hok (by simp)
  rename_i hnv
  have hst1 : Engine.evaluate
      { st with votes := st.votes ++
          [{ voterId := v, choice := c, referencedProofHash := h,
             castAt := now }] } now = st1 := by
    simpa using hok
  subst hst1
  have hnone : Engine.getVote st v = none := by
    cases hgv : Engine.getVote st v with
    | none => rfl
    | some w =>
      rw [hgv] at hnv
      simp at hnv
  have hfn : st.votes.find? (fun w => w.voterId == v) = none := hnone
  have hget : Engine.getVote
      (Engine.evaluate
        { st with votes := st.votes ++
            [{ voterId := v, choice := c, referencedProofHash := h,
               castAt := now }] } now) v =
      some { voterId := v, choice := c, referencedProofHash := h,
             castAt := now } := by
    have hveq : (Engine.evaluate
        { st with votes := st.votes ++
            [{ voterId := v, choice := c, referencedProofHash := h,
               castAt := now }] } now).votes =
        st.votes ++
          [{ voterId := v, choice := c, referencedProofHash := h,
             castAt := now }] := rfl
    unfold Engine.getVote
    rw [hveq, List.find?_append, hfn]
    simp [List.find?]
  refine ⟨hget, ?_, ?_⟩
  · intro now3 c3 h3 st2 hok2
    unfold Engine.castVote at hok2
    split at hok2
    · exact absurd hok2 (by simp)
    split at hok2
    · exact absurd hok2 (by simp)
    split at hok2
    · exact absurd hok2 (by simp)
    split at hok2
    · exact absurd hok2 (by simp)
    rename_i hnv2
    rw [hget] at hnv2
    simp at hnv2
  · intro ht1 hpe2
    have hps : Engine.isParticipant st v = true := by
      cases hp : Engine.isParticipant st v with
      | true => rfl
      | false =>
        rw [hp] at hpart
        simp at hpart
    have hps1 : Engine.isParticipant
        (Engine.evaluate
          { st with votes := st.votes ++
              [{ voterId := v, choice := c, referencedProofHash := h,
                 castAt := now }] } now) v = true := hps
    simp [Engine.castVote, ht1, hps1, hpe2, hget]

/-- Witness for C3: a recorded vote, then a second attempt by the same
participant referencing a recorded proof, rejected with `AlreadyVoted`. -/
theorem castVote_is_write_once_witness :
    Engine.castVote
      (Engine.evaluate
        { challenger := "x", challenged := "y", dueAt := 100,
          proofs := [{ submitterId := "x", contentURI := "u1",
                       contentHash := "h1", submittedAt := 1 }],
          votes := [{ voterId := "x", choice := Engine.Choice.challenger,
                      referencedProofHash := "h1", castAt := 5 }],
          decision := Engine.Outcome.pending } 5)
      6 "x" Engine.Choice.challenged "h1" =
      Except.error Engine.SettleError.alreadyVoted :=
  (castVote_is_write_once
    { challenger := "x", challenged := "y", dueAt := 100,
      proofs := [{ submitterId := "x", contentURI := "u1",
                   contentHash := "h1", submittedAt := 1 }],
      votes := [], decision := Engine.Outcome.pending }
    5 6 "x" Engine.Choice.challenger Engine.Choice.challenged "h1" "h1" _
    (by rfl)).2.2 (by rfl) (by rfl)

end EngineProofs
